import Mathlib

/-!
Verification of the forecast scoring and lock-in subsystem of a
group-based prediction-tracking web application.

Timestamps and probabilities are embedded as rational numbers; database
rows become Lean structures; the HTTP handlers become functions from an
application state and a request to `Except` of an error or a new state.
-/

namespace ForecastClub

/-- Status of a prediction (`app/models.py`, `PredictionStatus`). -/
inductive PredictionStatus where
  | open_
  | resolved_yes
  | resolved_no
  | ambiguous
deriving DecidableEq, Repr

/-- Lock-in at 75% of time elapsed (`Prediction.LOCK_IN_PERCENTAGE`). -/
def LOCK_IN_PERCENTAGE : ℚ := 3 / 4

/-- A row of the `predictions` table (`app/models.py`, `Prediction`). -/
structure Prediction where
  id : ℕ
  group_id : ℕ
  creator_id : ℕ
  title : String
  description : Option String
  resolution_criteria : Option String
  resolution_date : ℚ
  status : PredictionStatus
  resolved_at : Option ℚ
  created_at : ℚ
deriving DecidableEq, Repr

/-- Lock-in deadline: 75% of time from creation to resolution
(`Prediction.lock_in_at`). -/
def Prediction.lock_in_at (p : Prediction) : ℚ :=
  p.created_at + (p.resolution_date - p.created_at) * LOCK_IN_PERCENTAGE

/-- Whether forecasts are locked at time `now` (`Prediction.is_locked`;
`now` stands for `datetime.utcnow()`). -/
def Prediction.is_locked (p : Prediction) (now : ℚ) : Bool :=
  decide (now ≥ p.lock_in_at)

/-- Brier score of a single forecast (`app/scoring.py`,
`calculate_brier_score`); `none` for ambiguous outcomes. -/
def calculate_brier_score (probability : ℚ) (outcome : PredictionStatus) : Option ℚ :=
  if outcome = PredictionStatus.ambiguous then
    none
  else
    let actual : ℚ := if outcome = PredictionStatus.resolved_yes then 1 else 0
    some ((probability - actual) ^ 2)

/-- Average Brier score across forecasts, ambiguous outcomes excluded
(`app/scoring.py`, `calculate_average_brier_score`). -/
def calculate_average_brier_score (forecasts : List (ℚ × PredictionStatus)) : Option ℚ :=
  let scores := forecasts.filterMap (fun fo => calculate_brier_score fo.1 fo.2)
  if scores.isEmpty then
    none
  else
    some (scores.sum / scores.length)

/-- Truncation toward zero: the behavior of Python `int()` applied to the
quotient `probability / bucket_size`. -/
def ratTrunc (q : ℚ) : ℤ :=
  if q < 0 then ⌈q⌉ else ⌊q⌋

/-- Calibration bucket report (`app/schemas.py`, `CalibrationBucket`). -/
structure CalibrationBucket where
  bucket_start : ℚ
  bucket_end : ℚ
  predicted_probability : ℚ
  actual_frequency : ℚ
  count : ℕ
deriving DecidableEq, Repr

/-- Append a value to the list held at key `k` of the bucket map: the
`defaultdict(list)` append of `calculate_calibration_buckets`. -/
def bucketAppend (m : ℤ → List (ℚ × ℚ)) (k : ℤ) (v : ℚ × ℚ) : ℤ → List (ℚ × ℚ) :=
  fun j => if j = k then m k ++ [v] else m j

/-- One iteration of the grouping loop of `calculate_calibration_buckets`:
skip ambiguous outcomes, otherwise append `(probability, actual)` at
`min(int(probability / bucket_size), num_buckets - 1)`. -/
def calibrationStep (bucket_size : ℚ) (num_buckets : ℕ)
    (m : ℤ → List (ℚ × ℚ)) (fo : ℚ × PredictionStatus) : ℤ → List (ℚ × ℚ) :=
  if fo.2 = PredictionStatus.ambiguous then m
  else
    let actual : ℚ := if fo.2 = PredictionStatus.resolved_yes then 1 else 0
    let bucket_idx := min (ratTrunc (fo.1 / bucket_size)) ((num_buckets : ℤ) - 1)
    bucketAppend m bucket_idx (fo.1, actual)

/-- Calibration data grouped into probability buckets (`app/scoring.py`,
`calculate_calibration_buckets`). -/
def calculate_calibration_buckets (forecasts : List (ℚ × PredictionStatus))
    (num_buckets : ℕ) : List CalibrationBucket :=
  let bucket_size : ℚ := 1 / num_buckets
  let buckets := forecasts.foldl (calibrationStep bucket_size num_buckets) (fun _ => [])
  (List.range num_buckets).filterMap (fun (i : ℕ) =>
    let bucket_start := (i : ℚ) * bucket_size
    let bucket_end := ((i : ℚ) + 1) * bucket_size
    let items := buckets (i : ℤ)
    if items.isEmpty then none
    else some
      { bucket_start := bucket_start, bucket_end := bucket_end,
        predicted_probability := (items.map Prod.fst).sum / items.length,
        actual_frequency := (items.map Prod.snd).sum / items.length,
        count := items.length })

/-- The non-ambiguous forecasts with their realized outcome values, in
input order. -/
def calib_valid (forecasts : List (ℚ × PredictionStatus)) : List (ℚ × ℚ) :=
  forecasts.filterMap (fun fo =>
    if fo.2 = PredictionStatus.ambiguous then none
    else some (fo.1, if fo.2 = PredictionStatus.resolved_yes then (1 : ℚ) else 0))

/-- Bucket index as the claim words it: `min(floor(p / (1/n)), n - 1)`. -/
def claimed_bucket_index (p : ℚ) (n : ℕ) : ℕ :=
  min (⌊p / ((1 : ℚ) / n)⌋).toNat (n - 1)

/-- Calibration bucketing as the claim words it: drop ambiguous entries,
assign each remaining pair to bucket `claimed_bucket_index`, keep only
buckets with at least one member in ascending index order, and report
interval bounds, mean predicted probability, observed yes-frequency and
member count. -/
def calibration_buckets_of_claim (forecasts : List (ℚ × PredictionStatus)) (n : ℕ) :
    List CalibrationBucket :=
  let w : ℚ := 1 / n
  (List.range n).filterMap (fun i =>
    let items := (calib_valid forecasts).filter
      (fun q => decide (claimed_bucket_index q.1 n = i))
    if items.isEmpty then none
    else some
      { bucket_start := (i : ℚ) * w, bucket_end := ((i : ℚ) + 1) * w,
        predicted_probability := (items.map Prod.fst).sum / items.length,
        actual_frequency := (items.map Prod.snd).sum / items.length,
        count := items.length })

/-- A `forecasts` row with its `prediction` relationship loaded (the shape
consumed by `app/scoring.py` and `app/routers/stats.py`). -/
structure ForecastWithPrediction where
  user_id : ℕ
  probability : ℚ
  created_at : ℚ
  prediction : Prediction
deriving DecidableEq, Repr

/-- Return a forecast with its Brier score calculated (`app/scoring.py`,
`get_forecast_with_score`). -/
def get_forecast_with_score (forecast : ForecastWithPrediction) :
    ForecastWithPrediction × Option ℚ :=
  if forecast.prediction.status = PredictionStatus.open_ then
    (forecast, none)
  else
    (forecast, calculate_brier_score forecast.probability forecast.prediction.status)

/-- Fixture: an open prediction created at 0 resolving at 100. -/
def predOpen : Prediction :=
  { id := 1, group_id := 1, creator_id := 1, title := "t", description := none,
    resolution_criteria := none, resolution_date := 100,
    status := PredictionStatus.open_, resolved_at := none, created_at := 0 }

/-- Fixture: a forecast on `predOpen` made at time 10. -/
def fwpOpen : ForecastWithPrediction :=
  { user_id := 2, probability := 1/2, created_at := 10, prediction := predOpen }

/-- Fixture: a forecast on `predOpen` made exactly at the lock-in deadline. -/
def fwpBoundary : ForecastWithPrediction :=
  { user_id := 2, probability := 1/2, created_at := 75, prediction := predOpen }

/-- Leaderboard entry (`app/schemas.py`, `LeaderboardEntry`). -/
structure LeaderboardEntry where
  rank : ℕ
  user_id : ℕ
  average_brier_score : ℚ
  forecast_count : ℕ
deriving DecidableEq, Repr

/-- A group member together with the member's forecasts on the group's
predictions, each with its prediction loaded: the data
`get_group_leaderboard` fetches per member (`GroupMembership` with
`user`, plus the `Forecast` query). -/
structure LeaderboardMember where
  user_id : ℕ
  forecasts : List ForecastWithPrediction
deriving DecidableEq, Repr

/-- One iteration of the member loop of `get_group_leaderboard`
(`app/routers/stats.py`): restrict to forecasts on resolved predictions
(the SQL `prediction_id IN resolved_prediction_ids` filter, i.e. status
is not open), keep those created before the lock-in deadline, and skip
the member if none remain or the average score is undefined. -/
def leaderboard_row (member : LeaderboardMember) : Option (ℕ × ℚ × ℕ) :=
  let forecasts := member.forecasts.filter
    (fun f => decide (f.prediction.status ≠ PredictionStatus.open_))
  let locked_forecasts := forecasts.filter
    (fun f => decide (f.created_at < f.prediction.lock_in_at))
  if locked_forecasts.isEmpty then none
  else
    let forecast_data := locked_forecasts.map
      (fun f => (f.probability, f.prediction.status))
    match calculate_average_brier_score forecast_data with
    | none => none
    | some avg_score => some (member.user_id, avg_score, locked_forecasts.length)

/-- Group leaderboard (`app/routers/stats.py`, `get_group_leaderboard`):
the qualifying rows, sorted ascending by average Brier score with
Python's stable `list.sort`, then ranked by 1-based position. -/
def get_group_leaderboard (members : List LeaderboardMember) : List LeaderboardEntry :=
  let leaderboard := members.filterMap leaderboard_row
  let sorted := leaderboard.mergeSort (fun a b => decide (a.2.1 ≤ b.2.1))
  sorted.enum.map (fun ie =>
    { rank := ie.1 + 1, user_id := ie.2.1,
      average_brier_score := ie.2.2.1, forecast_count := ie.2.2.2 })

/-- Fixture: a resolved-yes prediction created at 0 resolving at 100. -/
def predYes : Prediction :=
  { predOpen with
    id := 2
    status := PredictionStatus.resolved_yes
    resolved_at := some 100 }

/-- Fixture: a member holding one qualifying forecast of 0.8 on `predYes`. -/
def lbMember1 : LeaderboardMember :=
  { user_id := 1,
    forecasts := [{ user_id := 1, probability := 4/5, created_at := 10, prediction := predYes }] }

/-- Fixture: a member holding one qualifying forecast of 0.5 on `predYes`. -/
def lbMember2 : LeaderboardMember :=
  { user_id := 2,
    forecasts := [{ user_id := 2, probability := 1/2, created_at := 10, prediction := predYes }] }

/-- Role of a group member (`app/models.py`, `GroupRole`). -/
inductive GroupRole where
  | member
  | admin
deriving DecidableEq, Repr

/-- A row of the `group_memberships` table (`app/models.py`,
`GroupMembership`). -/
structure GroupMembership where
  user_id : ℕ
  group_id : ℕ
  role : GroupRole
deriving DecidableEq, Repr

/-- A row of the `forecasts` table (`app/models.py`, `Forecast`). -/
structure Forecast where
  id : ℕ
  prediction_id : ℕ
  user_id : ℕ
  probability : ℚ
  reasoning : Option String
  created_at : ℚ
  updated_at : ℚ
deriving DecidableEq, Repr

/-- The database state visible to the routers. -/
structure AppState where
  predictions : List Prediction
  memberships : List GroupMembership
  forecasts : List Forecast
deriving DecidableEq, Repr

/-- Status of the `HTTPException` a router raises. -/
inductive ApiError where
  | notFound
  | forbidden
  | badRequest
deriving DecidableEq, Repr

/-- The query `select(Prediction).where(Prediction.id == ...)` followed by
`scalar_one_or_none()`. -/
def findPred (st : AppState) (prediction_id : ℕ) : Option Prediction :=
  st.predictions.find? (fun p => p.id == prediction_id)

/-- Membership of a user in a group (`app/routers/groups.py`,
`get_membership`). -/
def get_membership (st : AppState) (group_id user_id : ℕ) : Option GroupMembership :=
  st.memberships.find? (fun m => m.group_id == group_id && m.user_id == user_id)

/-- Request body for creating a forecast (`app/schemas.py`,
`ForecastCreate`). -/
structure ForecastCreate where
  prediction_id : ℕ
  probability : ℚ
  reasoning : Option String
deriving DecidableEq, Repr

/-- Request body for updating a forecast (`app/schemas.py`,
`ForecastUpdate`). -/
structure ForecastUpdate where
  probability : ℚ
  reasoning : Option String
deriving DecidableEq, Repr

/-- Request body for creating a prediction (`app/schemas.py`,
`PredictionCreate`). -/
structure PredictionCreate where
  group_id : ℕ
  title : String
  description : Option String
  resolution_criteria : Option String
  resolution_date : ℚ
deriving DecidableEq, Repr

/-- Request body for resolving a prediction (`app/schemas.py`,
`ResolveRequest`). -/
structure ResolveRequest where
  outcome : PredictionStatus
deriving DecidableEq, Repr

/-- POST /forecasts (`app/routers/forecasts.py`, `create_forecast`);
`now` stands for the database clock and `new_id` for the generated
primary key. An `HTTPException` aborts the transaction, so an error
leaves the state untouched. -/
def create_forecast (st : AppState) (now : ℚ) (current_user : ℕ)
    (forecast_data : ForecastCreate) (new_id : ℕ) :
    Except ApiError (AppState × Forecast) :=
  match findPred st forecast_data.prediction_id with
  | none => Except.error ApiError.notFound
  | some prediction =>
    if (get_membership st prediction.group_id current_user).isNone then
      Except.error ApiError.forbidden
    else if prediction.status ≠ PredictionStatus.open_ then
      Except.error ApiError.badRequest
    else if prediction.is_locked now then
      Except.error ApiError.badRequest
    else if (st.forecasts.find? (fun f =>
        f.prediction_id == forecast_data.prediction_id
          && f.user_id == current_user)).isSome then
      Except.error ApiError.badRequest
    else
      let forecast : Forecast :=
        { id := new_id, prediction_id := forecast_data.prediction_id,
          user_id := current_user, probability := forecast_data.probability,
          reasoning := forecast_data.reasoning, created_at := now, updated_at := now }
      Except.ok ({ st with forecasts := st.forecasts ++ [forecast] }, forecast)

/-- PATCH /forecasts/forecast_id (`app/routers/forecasts.py`,
`update_forecast`); the `scalar_one()` fetch of the prediction is
modelled as an error when the row is missing. -/
def update_forecast (st : AppState) (now : ℚ) (current_user : ℕ)
    (forecast_id : ℕ) (update_data : ForecastUpdate) :
    Except ApiError (AppState × Forecast) :=
  match st.forecasts.find? (fun f => f.id == forecast_id) with
  | none => Except.error ApiError.notFound
  | some forecast =>
    if forecast.user_id ≠ current_user then
      Except.error ApiError.forbidden
    else
      match findPred st forecast.prediction_id with
      | none => Except.error ApiError.notFound
      | some prediction =>
        if prediction.status ≠ PredictionStatus.open_ then
          Except.error ApiError.badRequest
        else if prediction.is_locked now then
          Except.error ApiError.badRequest
        else
          let updated : Forecast :=
            { forecast with
              probability := update_data.probability
              reasoning := match update_data.reasoning with
                | none => forecast.reasoning
                | some r => some r
              updated_at := now }
          Except.ok
            ({ st with forecasts :=
                st.forecasts.map (fun f => if f.id == forecast_id then updated else f) },
              updated)

/-- POST /predictions (`app/routers/predictions.py`, `create_prediction`). -/
def create_prediction (st : AppState) (now : ℚ) (current_user : ℕ)
    (prediction_data : PredictionCreate) (new_id : ℕ) :
    Except ApiError (AppState × Prediction) :=
  if (get_membership st prediction_data.group_id current_user).isNone then
    Except.error ApiError.forbidden
  else
    let prediction : Prediction :=
      { id := new_id, group_id := prediction_data.group_id,
        creator_id := current_user, title := prediction_data.title,
        description := prediction_data.description,
        resolution_criteria := prediction_data.resolution_criteria,
        resolution_date := prediction_data.resolution_date,
        status := PredictionStatus.open_, resolved_at := none, created_at := now }
    Except.ok ({ st with predictions := st.predictions ++ [prediction] }, prediction)

/-- POST /predictions/prediction_id/resolve (`app/routers/predictions.py`,
`resolve_prediction`). -/
def resolve_prediction (st : AppState) (now : ℚ) (current_user : ℕ)
    (prediction_id : ℕ) (resolve_data : ResolveRequest) :
    Except ApiError (AppState × Prediction) :=
  if resolve_data.outcome = PredictionStatus.open_ then
    Except.error ApiError.badRequest
  else
    match findPred st prediction_id with
    | none => Except.error ApiError.notFound
    | some prediction =>
      if prediction.status ≠ PredictionStatus.open_ then
        Except.error ApiError.badRequest
      else
        match get_membership st prediction.group_id current_user with
        | none => Except.error ApiError.forbidden
        | some membership =>
          if ¬ (prediction.creator_id = current_user
              ∨ membership.role = GroupRole.admin) then
            Except.error ApiError.forbidden
          else
            let updated : Prediction :=
              { prediction with
                status := resolve_data.outcome
                resolved_at := some now }
            Except.ok
              ({ st with predictions :=
                  st.predictions.map (fun p => if p.id == prediction_id then updated else p) },
                updated)

/-- Database state after a handler ran: unchanged when it raised. -/
def run_state {α : Type} (st : AppState) (r : Except ApiError (AppState × α)) : AppState :=
  match r with
  | Except.error _ => st
  | Except.ok (st2, _) => st2

/-- One resolve request of a sequence. -/
structure ResolveOp where
  now : ℚ
  user : ℕ
  prediction_id : ℕ
  req : ResolveRequest
deriving DecidableEq, Repr

/-- State after one resolve request. -/
def apply_resolve (st : AppState) (op : ResolveOp) : AppState :=
  run_state st (resolve_prediction st op.now op.user op.prediction_id op.req)

/-- State after a sequence of resolve requests. -/
def apply_resolves (st : AppState) : List ResolveOp → AppState
  | [] => st
  | op :: ops => apply_resolves (apply_resolve st op) ops

/-- How many requests of a sequence resolve prediction `pid` successfully. -/
def resolve_count_on (pid : ℕ) (st : AppState) : List ResolveOp → ℕ
  | [] => 0
  | op :: ops =>
    (if op.prediction_id == pid
        && (resolve_prediction st op.now op.user op.prediction_id op.req).isOk
      then 1 else 0)
      + resolve_count_on pid (apply_resolve st op) ops

/-- Fixture: one open prediction, one ordinary member of its group. -/
def stC6 : AppState :=
  { predictions := [predOpen],
    memberships := [{ user_id := 2, group_id := 1, role := GroupRole.member }],
    forecasts := [] }

/-- Fixture: a forecast request of 0.5 on prediction 1. -/
def fdC6 : ForecastCreate :=
  { prediction_id := 1, probability := 1/2, reasoning := none }

/-- Fixture: a forecast-update request of 0.3. -/
def updC6 : ForecastUpdate :=
  { probability := 3/10, reasoning := none }

/-- Fixture: one open prediction whose creator is user 1, who is also an
admin of the group. -/
def stC7 : AppState :=
  { predictions := [predOpen],
    memberships := [{ user_id := 1, group_id := 1, role := GroupRole.admin }],
    forecasts := [] }

/-- Fixture: two successive resolve requests for prediction 1. -/
def opsC7 : List ResolveOp :=
  [{ now := 5, user := 1, prediction_id := 1,
      req := { outcome := PredictionStatus.resolved_yes } },
    { now := 6, user := 1, prediction_id := 1,
      req := { outcome := PredictionStatus.resolved_no } }]

/-- Fixture: an empty database with one group membership. -/
def stC8 : AppState :=
  { predictions := [],
    memberships := [{ user_id := 1, group_id := 1, role := GroupRole.member }],
    forecasts := [] }

/-- Fixture: a prediction-creation request whose resolution date, 50, lies
before the creation clock used in the counterexample, 100. -/
def pdC8 : PredictionCreate :=
  { group_id := 1, title := "t", description := none,
    resolution_criteria := none, resolution_date := 50 }

/-! ### Theorems -/

/-- Claim C1: for every prediction, the lock-in deadline equals `created_at`
plus 0.75 times the interval from `created_at` to `resolution_date`
(creation at T0 and resolution at T0+100 gives `lock_in_at = T0+75`), and
`is_locked now` is true iff `now ≥ lock_in_at` (false at T0+74.9, true at
T0+75 and beyond). -/
theorem lock_in_deadline_spec (pred : Prediction) (now t0 : ℚ) :
    pred.lock_in_at = pred.created_at + (3/4) * (pred.resolution_date - pred.created_at)
    ∧ (pred.is_locked now = true ↔ now ≥ pred.lock_in_at)
    ∧ ({ pred with created_at := t0, resolution_date := t0 + 100 } : Prediction).lock_in_at
        = t0 + 75
    ∧ ({ pred with created_at := t0, resolution_date := t0 + 100 } : Prediction).is_locked
        (t0 + 749/10) = false
    ∧ ({ pred with created_at := t0, resolution_date := t0 + 100 } : Prediction).is_locked
        (t0 + 75) = true := by
  have hl : ({ pred with created_at := t0, resolution_date := t0 + 100 } :
      Prediction).lock_in_at = t0 + 75 := by
    simp only [Prediction.lock_in_at, LOCK_IN_PERCENTAGE]
    ring
  refine ⟨?_, ?_, hl, ?_, ?_⟩
  · simp only [Prediction.lock_in_at, LOCK_IN_PERCENTAGE]
    ring
  · simp [Prediction.is_locked]
  · simp only [Prediction.is_locked, hl, decide_eq_false_iff_not]
    intro h
    linarith
  · simp only [Prediction.is_locked, hl, decide_eq_true_eq]
    linarith

/-- Claim C2: for probability p in [0,1] and outcome resolved_yes or
resolved_no, the single-forecast Brier score is `(p - actual)²` with
actual 1 for yes and 0 for no, lies in [0,1], and at p = 1/2 both
outcomes score 1/4. -/
theorem brier_score_spec (p : ℚ) (o : PredictionStatus) (hp0 : 0 ≤ p) (hp1 : p ≤ 1)
    (ho : o = PredictionStatus.resolved_yes ∨ o = PredictionStatus.resolved_no) :
    calculate_brier_score p o
      = some ((p - (if o = PredictionStatus.resolved_yes then 1 else 0)) ^ 2)
    ∧ 0 ≤ (p - (if o = PredictionStatus.resolved_yes then 1 else 0)) ^ 2
    ∧ (p - (if o = PredictionStatus.resolved_yes then 1 else 0)) ^ 2 ≤ 1
    ∧ calculate_brier_score (1/2) PredictionStatus.resolved_yes = some (1/4)
    ∧ calculate_brier_score (1/2) PredictionStatus.resolved_no = some (1/4) := by
  have hyes : calculate_brier_score (1/2) PredictionStatus.resolved_yes = some (1/4) := by
    simp [calculate_brier_score]
    norm_num
  have hno : calculate_brier_score (1/2) PredictionStatus.resolved_no = some (1/4) := by
    simp [calculate_brier_score]
    norm_num
  rcases ho with h | h <;> subst h
  · refine ⟨by simp [calculate_brier_score], by positivity, ?_, hyes, hno⟩
    rw [if_pos rfl]
    nlinarith
  · refine ⟨by simp [calculate_brier_score], by positivity, ?_, hyes, hno⟩
    rw [if_neg (by simp)]
    nlinarith

/-- Claim C2 witness: instantiation at p = 1/2 with outcome resolved_yes. -/
theorem brier_score_spec_witness :
    (0:ℚ) ≤ 1/2 ∧ (1:ℚ)/2 ≤ 1
    ∧ calculate_brier_score (1/2) PredictionStatus.resolved_yes = some (1/4) :=
  ⟨by norm_num, by norm_num,
    (brier_score_spec (1/2) PredictionStatus.resolved_yes (by norm_num) (by norm_num)
      (Or.inl rfl)).2.2.2.1⟩

/-- The list of defined scores is exactly the squared errors of the
non-ambiguous entries, in order. -/
theorem brier_scores_eq_map_filter (fs : List (ℚ × PredictionStatus)) :
    fs.filterMap (fun fo => calculate_brier_score fo.1 fo.2)
      = (fs.filter fun x => decide (x.2 ≠ PredictionStatus.ambiguous)).map
          (fun x => (x.1 - if x.2 = PredictionStatus.resolved_yes then 1 else 0) ^ 2) := by
  induction fs with
  | nil => rfl
  | cons x xs ih =>
    by_cases hx : x.2 = PredictionStatus.ambiguous
    · simpa [calculate_brier_score, hx, List.filterMap_cons] using ih
    · simpa [calculate_brier_score, hx, List.filterMap_cons] using ih

/-- Claim C3: the average Brier score is `none` iff every entry is
ambiguous (in particular for the empty list); otherwise it is the
arithmetic mean of the squared errors of exactly the non-ambiguous
entries, and inserting an ambiguous entry anywhere never changes the
result. -/
theorem average_brier_spec (fs : List (ℚ × PredictionStatus)) :
    (calculate_average_brier_score fs = none
      ↔ ∀ x ∈ fs, x.2 = PredictionStatus.ambiguous)
    ∧ (∀ (l1 l2 : List (ℚ × PredictionStatus)) (p : ℚ),
        calculate_average_brier_score (l1 ++ (p, PredictionStatus.ambiguous) :: l2)
          = calculate_average_brier_score (l1 ++ l2))
    ∧ (∀ m, calculate_average_brier_score fs = some m →
        m = ((fs.filter fun x => decide (x.2 ≠ PredictionStatus.ambiguous)).map
              (fun x => (x.1 - if x.2 = PredictionStatus.resolved_yes then 1 else 0) ^ 2)).sum
            / ((fs.filter fun x => decide (x.2 ≠ PredictionStatus.ambiguous)).length : ℚ)) := by
  have hnone : ∀ (l : List (ℚ × PredictionStatus)),
      (l.filterMap fun fo => calculate_brier_score fo.1 fo.2) = []
        ↔ ∀ x ∈ l, x.2 = PredictionStatus.ambiguous := by
    intro l
    rw [List.filterMap_eq_nil_iff]
    refine forall_congr' fun a => imp_congr_right fun _ => ?_
    by_cases ha : a.2 = PredictionStatus.ambiguous <;> simp [calculate_brier_score, ha]
  refine ⟨?_, ?_, ?_⟩
  · simp only [calculate_average_brier_score]
    constructor
    · intro hr
      by_cases h : (fs.filterMap fun fo => calculate_brier_score fo.1 fo.2).isEmpty
      · exact (hnone fs).mp (List.isEmpty_iff.mp h)
      · simp [h] at hr
    · intro hall
      have h : (fs.filterMap fun fo => calculate_brier_score fo.1 fo.2) = [] :=
        (hnone fs).mpr hall
      simp [h]
  · intro l1 l2 p
    have hfm : ((l1 ++ (p, PredictionStatus.ambiguous) :: l2).filterMap
          fun fo => calculate_brier_score fo.1 fo.2)
        = ((l1 ++ l2).filterMap fun fo => calculate_brier_score fo.1 fo.2) := by
      simp [List.filterMap_append, List.filterMap_cons, calculate_brier_score]
    simp only [calculate_average_brier_score, hfm]
  · intro m hm
    simp only [calculate_average_brier_score] at hm
    rw [brier_scores_eq_map_filter] at hm
    split at hm
    · exact Option.noConfusion hm
    · injection hm with hm
      subst hm
      simp [List.length_map]

/-- Claim C3 witness: an ambiguous entry is transparently dropped, and the
empty list has no average. -/
theorem average_brier_spec_witness :
    calculate_average_brier_score
        ([(9/10, PredictionStatus.resolved_yes)]
          ++ (1/2, PredictionStatus.ambiguous) :: [(1/10, PredictionStatus.resolved_no)])
      = calculate_average_brier_score
          ([(9/10, PredictionStatus.resolved_yes)] ++ [(1/10, PredictionStatus.resolved_no)])
    ∧ calculate_average_brier_score [] = none :=
  ⟨(average_brier_spec []).2.1 [(9/10, PredictionStatus.resolved_yes)]
      [(1/10, PredictionStatus.resolved_no)] (1/2),
    (average_brier_spec []).1.mpr (by simp)⟩

/-- Claim C9: the single-forecast scorer applied to the `open` status
returns `(p - 0)² = p²`, exactly as for `resolved_no`; the per-forecast
wrapper `get_forecast_with_score` is what returns no score for an open
prediction. -/
theorem brier_score_open_spec (p : ℚ) (f : ForecastWithPrediction) :
    calculate_brier_score p PredictionStatus.open_ = some ((p - 0) ^ 2)
    ∧ calculate_brier_score p PredictionStatus.open_
        = calculate_brier_score p PredictionStatus.resolved_no
    ∧ (f.prediction.status = PredictionStatus.open_ →
        (get_forecast_with_score f).2 = none) := by
  refine ⟨by simp [calculate_brier_score], by simp [calculate_brier_score], fun h => ?_⟩
  simp [get_forecast_with_score, h]

/-- Claim C9 witness: a concrete forecast on an open prediction. -/
theorem brier_score_open_spec_witness :
    fwpOpen.prediction.status = PredictionStatus.open_
    ∧ (get_forecast_with_score fwpOpen).2 = none :=
  ⟨rfl, (brier_score_open_spec 0 fwpOpen).2.2 rfl⟩

/-- Claim C10: the scoring-eligibility test `created_at < lock_in_at`
holds iff the prediction was not locked at the instant the forecast was
created; a forecast created exactly at `lock_in_at` is ineligible while
the prediction is already locked at that instant. -/
theorem lock_in_boundary_spec (f : ForecastWithPrediction) :
    (decide (f.created_at < f.prediction.lock_in_at) = true
      ↔ f.prediction.is_locked f.created_at = false)
    ∧ (f.created_at = f.prediction.lock_in_at →
        decide (f.created_at < f.prediction.lock_in_at) = false
        ∧ f.prediction.is_locked f.created_at = true) := by
  constructor
  · simp [Prediction.is_locked]
  · intro h
    constructor
    · simp [h]
    · simp [Prediction.is_locked, h]

/-- Claim C10 witness: a forecast created exactly at the lock-in deadline
is ineligible for scoring and the prediction counts as locked. -/
theorem lock_in_boundary_spec_witness :
    fwpBoundary.created_at = fwpBoundary.prediction.lock_in_at
    ∧ decide (fwpBoundary.created_at < fwpBoundary.prediction.lock_in_at) = false
    ∧ fwpBoundary.prediction.is_locked fwpBoundary.created_at = true := by
  have h : fwpBoundary.created_at = fwpBoundary.prediction.lock_in_at := by
    simp [fwpBoundary, predOpen, Prediction.lock_in_at, LOCK_IN_PERCENTAGE]
    norm_num
  exact ⟨h, (lock_in_boundary_spec fwpBoundary).2 h⟩

/-- The bucket map built by the grouping loop holds, at each key, the
non-ambiguous forecasts assigned to that key, in input order. -/
theorem calibration_fold_apply (bucket_size : ℚ) (n : ℕ)
    (fs : List (ℚ × PredictionStatus)) :
    ∀ (m : ℤ → List (ℚ × ℚ)) (j : ℤ),
      (fs.foldl (calibrationStep bucket_size n) m) j
        = m j ++ (calib_valid fs).filter
            (fun q => decide (min (ratTrunc (q.1 / bucket_size)) ((n : ℤ) - 1) = j)) := by
  induction fs with
  | nil => intro m j; simp [calib_valid]
  | cons x xs ih =>
    intro m j
    rw [List.foldl_cons]
    by_cases hx : x.2 = PredictionStatus.ambiguous
    · rw [ih]
      simp [calibrationStep, hx, calib_valid, List.filterMap_cons]
    · rw [ih]
      have hv : calib_valid (x :: xs)
          = (x.1, if x.2 = PredictionStatus.resolved_yes then (1 : ℚ) else 0)
              :: calib_valid xs := by
        simp [calib_valid, List.filterMap_cons, hx]
      rw [hv, List.filter_cons]
      simp only [calibrationStep, if_neg hx, bucketAppend]
      by_cases hk : j = min (ratTrunc (x.1 / bucket_size)) ((n : ℤ) - 1)
      · subst hk
        simp [List.append_assoc]
      · simp [hk, Ne.symm hk]

/-- The integer bucket index computed by the code agrees with the natural
bucket index worded in the claim, for probabilities that are not negative. -/
theorem bucket_index_eq (p : ℚ) (n : ℕ) (hn : 1 ≤ n) (hp : 0 ≤ p) (i : ℕ) :
    (min (ratTrunc (p / ((1 : ℚ) / n))) ((n : ℤ) - 1) = (i : ℤ))
      ↔ claimed_bucket_index p n = i := by
  have hnq : (0 : ℚ) < (n : ℚ) := by exact_mod_cast hn
  have hw : (0 : ℚ) < 1 / n := by positivity
  have hdiv : 0 ≤ p / ((1 : ℚ) / n) := div_nonneg hp hw.le
  have htr : ratTrunc (p / ((1 : ℚ) / n)) = ⌊p / ((1 : ℚ) / n)⌋ := by
    unfold ratTrunc
    exact if_neg (not_lt.mpr hdiv)
  have hfl : 0 ≤ ⌊p / ((1 : ℚ) / n)⌋ := Int.floor_nonneg.mpr hdiv
  have hcast : (claimed_bucket_index p n : ℤ)
      = min ⌊p / ((1 : ℚ) / n)⌋ ((n : ℤ) - 1) := by
    unfold claimed_bucket_index
    rw [Nat.cast_min, Int.toNat_of_nonneg hfl, Nat.cast_sub hn, Nat.cast_one]
  rw [htr, ← hcast]
  exact Nat.cast_inj

/-- Claim C4: for probabilities in [0,1] and at least one bucket, the
code's calibration bucketing coincides with the claim's description
(ambiguous entries dropped, assignment by `min(floor(p/(1/n)), n-1)`,
only non-empty buckets, ascending by bucket index, reporting bounds,
mean predicted probability, observed yes-frequency and member count);
moreover the returned buckets are strictly ascending in `bucket_start`
and all have positive count. -/
theorem calibration_buckets_spec (fs : List (ℚ × PredictionStatus)) (n : ℕ)
    (hn : 1 ≤ n) (hp : ∀ x ∈ fs, 0 ≤ x.1 ∧ x.1 ≤ 1) :
    calculate_calibration_buckets fs n = calibration_buckets_of_claim fs n
    ∧ (calculate_calibration_buckets fs n).Pairwise
        (fun a b => a.bucket_start < b.bucket_start)
    ∧ (∀ b ∈ calculate_calibration_buckets fs n, 0 < b.count) := by
  have hq0 : ∀ q ∈ calib_valid fs, 0 ≤ q.1 := by
    intro q hq
    rw [calib_valid, List.mem_filterMap] at hq
    obtain ⟨a, ha, hfa⟩ := hq
    by_cases h2 : a.2 = PredictionStatus.ambiguous
    · simp [h2] at hfa
    · rw [if_neg h2] at hfa
      obtain rfl := Option.some_injective _ hfa
      exact (hp a ha).1
  have hitems : ∀ i : ℕ,
      (fs.foldl (calibrationStep (1 / (n : ℚ)) n) (fun _ => [])) (i : ℤ)
        = (calib_valid fs).filter (fun q => decide (claimed_bucket_index q.1 n = i)) := by
    intro i
    rw [calibration_fold_apply]
    rw [List.nil_append]
    apply List.filter_congr
    intro q hq
    exact decide_eq_decide.mpr (bucket_index_eq q.1 n hn (hq0 q hq) i)
  refine ⟨?_, ?_, ?_⟩
  · simp only [calculate_calibration_buckets, calibration_buckets_of_claim]
    refine List.filterMap_congr ?_
    intro i _
    rw [hitems i]
  · simp only [calculate_calibration_buckets]
    rw [List.pairwise_filterMap]
    refine (List.pairwise_lt_range n).imp ?_
    intro i j hij b hb b' hb'
    have hw : (0 : ℚ) < 1 / n := by
      have : (0 : ℚ) < (n : ℚ) := by exact_mod_cast hn
      positivity
    split at hb
    · simp at hb
    · rw [Option.mem_some_iff] at hb
      split at hb'
      · simp at hb'
      · rw [Option.mem_some_iff] at hb'
        subst hb
        subst hb'
        have : (i : ℚ) < (j : ℚ) := by exact_mod_cast hij
        exact mul_lt_mul_of_pos_right this hw
  · intro b hb
    simp only [calculate_calibration_buckets] at hb
    rw [List.mem_filterMap] at hb
    obtain ⟨i, _, hfi⟩ := hb
    split at hfi
    · exact Option.noConfusion hfi
    · obtain rfl := Option.some_injective _ hfi
      rename_i hne
      have : (fs.foldl (calibrationStep (1 / (n : ℚ)) n) (fun _ => [])) (i : ℤ) ≠ [] := by
        intro h
        rw [h] at hne
        simp at hne
      simpa using List.length_pos.mpr this

/-- Claim C4 witness: two forecasts at 0.15 (no) and 0.85 (yes) with ten
buckets. -/
theorem calibration_buckets_spec_witness :
    1 ≤ 10
    ∧ (∀ x ∈ [((3:ℚ)/20, PredictionStatus.resolved_no),
        ((17:ℚ)/20, PredictionStatus.resolved_yes)], 0 ≤ x.1 ∧ x.1 ≤ 1)
    ∧ calculate_calibration_buckets
        [((3:ℚ)/20, PredictionStatus.resolved_no),
          ((17:ℚ)/20, PredictionStatus.resolved_yes)] 10
      = calibration_buckets_of_claim
          [((3:ℚ)/20, PredictionStatus.resolved_no),
            ((17:ℚ)/20, PredictionStatus.resolved_yes)] 10 :=
  ⟨by norm_num,
    by intro x hx; fin_cases hx <;> norm_num,
    (calibration_buckets_spec _ 10 (by norm_num)
      (by intro x hx; fin_cases hx <;> norm_num)).1⟩

/-- The leaderboard has one entry per qualifying member row. -/
theorem leaderboard_length (members : List LeaderboardMember) :
    (get_group_leaderboard members).length
      = ((members.filterMap leaderboard_row).mergeSort
          (fun a b => decide (a.2.1 ≤ b.2.1))).length := by
  simp [get_group_leaderboard]

/-- Each leaderboard entry is the sorted row at its position, with rank
equal to position plus one. -/
theorem leaderboard_get (members : List LeaderboardMember) (k : ℕ)
    (hk1 : k < (get_group_leaderboard members).length)
    (hk2 : k < ((members.filterMap leaderboard_row).mergeSort
        (fun a b => decide (a.2.1 ≤ b.2.1))).length) :
    (get_group_leaderboard members).get ⟨k, hk1⟩
      = { rank := k + 1,
          user_id := (((members.filterMap leaderboard_row).mergeSort
              (fun a b => decide (a.2.1 ≤ b.2.1))).get ⟨k, hk2⟩).1,
          average_brier_score := (((members.filterMap leaderboard_row).mergeSort
              (fun a b => decide (a.2.1 ≤ b.2.1))).get ⟨k, hk2⟩).2.1,
          forecast_count := (((members.filterMap leaderboard_row).mergeSort
              (fun a b => decide (a.2.1 ≤ b.2.1))).get ⟨k, hk2⟩).2.2 } := by
  simp only [get_group_leaderboard, List.get_eq_getElem, List.getElem_map,
    List.getElem_enum]

/-- A member's leaderboard row carries that member's user id. -/
theorem leaderboard_row_fst (m : LeaderboardMember) (r : ℕ × ℚ × ℕ)
    (h : leaderboard_row m = some r) : r.1 = m.user_id := by
  simp only [leaderboard_row] at h
  split at h
  · exact Option.noConfusion h
  · split at h
    · exact Option.noConfusion h
    · obtain rfl := Option.some_injective _ h
      rfl

/-- The score comparison used by the leaderboard sort is transitive. -/
theorem leaderboard_le_trans (a b c : ℕ × ℚ × ℕ)
    (h1 : decide (a.2.1 ≤ b.2.1) = true) (h2 : decide (b.2.1 ≤ c.2.1) = true) :
    decide (a.2.1 ≤ c.2.1) = true := by
  rw [decide_eq_true_eq] at *
  exact le_trans h1 h2

/-- The score comparison used by the leaderboard sort is total. -/
theorem leaderboard_le_total (a b : ℕ × ℚ × ℕ) :
    (decide (a.2.1 ≤ b.2.1) || decide (b.2.1 ≤ a.2.1)) = true := by
  rcases le_total a.2.1 b.2.1 with h | h <;> simp [h]

/-- Claim C5: members with no qualifying forecasts and members whose
average score is undefined are absent from the leaderboard; the entries
are sorted ascending by average Brier score; each entry's rank is its
1-based position after sorting; and equal scores keep the members'
input relative order (stable sort). -/
theorem leaderboard_spec (members : List LeaderboardMember)
    (hids : (members.map LeaderboardMember.user_id).Nodup) :
    (∀ m ∈ members, leaderboard_row m = none →
      ∀ e ∈ get_group_leaderboard members, e.user_id ≠ m.user_id)
    ∧ (get_group_leaderboard members).Pairwise
        (fun a b => a.average_brier_score ≤ b.average_brier_score)
    ∧ (∀ (i : ℕ) (h : i < (get_group_leaderboard members).length),
        ((get_group_leaderboard members).get ⟨i, h⟩).rank = i + 1)
    ∧ (∀ (i j : ℕ) (hi : i < members.length) (hj : j < members.length), i < j →
        ∀ r1 r2, leaderboard_row (members.get ⟨i, hi⟩) = some r1 →
          leaderboard_row (members.get ⟨j, hj⟩) = some r2 →
          r1.2.1 = r2.2.1 →
          ∃ (k l : ℕ) (hk : k < (get_group_leaderboard members).length)
            (hl : l < (get_group_leaderboard members).length),
            k < l
            ∧ (get_group_leaderboard members).get ⟨k, hk⟩
                = { rank := k + 1, user_id := r1.1,
                    average_brier_score := r1.2.1, forecast_count := r1.2.2 }
            ∧ (get_group_leaderboard members).get ⟨l, hl⟩
                = { rank := l + 1, user_id := r2.1,
                    average_brier_score := r2.2.1, forecast_count := r2.2.2 }) := by
  have hS : ((members.filterMap leaderboard_row).mergeSort
      (fun a b => decide (a.2.1 ≤ b.2.1))).Pairwise
        (fun a b => decide (a.2.1 ≤ b.2.1) = true) :=
    List.sorted_mergeSort leaderboard_le_trans leaderboard_le_total _
  refine ⟨?_, ?_, ?_, ?_⟩
  · intro m hm hrow e he hne
    rw [get_group_leaderboard, List.mem_map] at he
    obtain ⟨ie, hie, rfl⟩ := he
    have h2 : ie.2 ∈ members.filterMap leaderboard_row :=
      List.mem_mergeSort.mp (List.snd_mem_of_mem_enum hie)
    rw [List.mem_filterMap] at h2
    obtain ⟨m2, hm2, hrow2⟩ := h2
    have huid : m2.user_id = m.user_id := by
      have := leaderboard_row_fst m2 ie.2 hrow2
      simpa [this] using hne
    have : m2 = m :=
      List.inj_on_of_nodup_map hids hm2 hm huid
    rw [this, hrow] at hrow2
    exact Option.noConfusion hrow2
  · rw [get_group_leaderboard, List.pairwise_map, List.pairwise_iff_getElem]
    intro i j hi hj hij
    rw [List.enum_length] at hi hj
    simp only [List.getElem_enum]
    have := (List.pairwise_iff_getElem.mp hS) i j
      (by simpa using hi) (by simpa using hj) hij
    simpa using this
  · intro i h
    have h2 : i < ((members.filterMap leaderboard_row).mergeSort
        (fun a b => decide (a.2.1 ≤ b.2.1))).length := by
      rw [← leaderboard_length]; exact h
    rw [leaderboard_get members i h h2]
  · intro i j hi hj hij r1 r2 hr1 hr2 heq
    have hpw : ([⟨i, hi⟩, ⟨j, hj⟩] : List (Fin members.length)).Pairwise
        (·.val < ·.val) := List.pairwise_pair.mpr hij
    have hsub : List.Sublist [members.get ⟨i, hi⟩, members.get ⟨j, hj⟩] members := by
      simpa using List.map_get_sublist hpw
    have hsubL : List.Sublist [r1, r2] (members.filterMap leaderboard_row) := by
      have h3 := hsub.filterMap leaderboard_row
      rw [List.get_eq_getElem] at hr1 hr2
      simpa [List.filterMap_cons, hr1, hr2] using h3
    have hab : decide (r1.2.1 ≤ r2.2.1) = true := by simp [heq]
    have hpairS : List.Sublist [r1, r2] ((members.filterMap leaderboard_row).mergeSort
        (fun a b => decide (a.2.1 ≤ b.2.1))) :=
      List.pair_sublist_mergeSort leaderboard_le_trans leaderboard_le_total hab hsubL
    obtain ⟨is, hmap, hchain⟩ := List.sublist_eq_map_get hpairS
    match is, hmap, hchain with
    | [a, b], hmap, hchain =>
      have hab2 : a < b := by
        rw [List.pairwise_pair] at hchain
        exact hchain
      have hr1' : r1 = ((members.filterMap leaderboard_row).mergeSort
          (fun x y => decide (x.2.1 ≤ y.2.1))).get a := by
        have := congrArg (fun l => l.head?) hmap
        simpa using this
      have hr2' : r2 = ((members.filterMap leaderboard_row).mergeSort
          (fun x y => decide (x.2.1 ≤ y.2.1))).get b := by
        have := congrArg (fun l => l.get? 1) hmap
        simpa using this
      have hk : (a : ℕ) < (get_group_leaderboard members).length := by
        rw [leaderboard_length]; exact a.isLt
      have hl : (b : ℕ) < (get_group_leaderboard members).length := by
        rw [leaderboard_length]; exact b.isLt
      refine ⟨a, b, hk, hl, hab2, ?_, ?_⟩
      · rw [leaderboard_get members a hk (by simpa using a.isLt)]
        rw [hr1']
      · rw [leaderboard_get members b hl (by simpa using b.isLt)]
        rw [hr2']

/-- Claim C5 witness: a two-member group with distinct user ids; every
returned entry's rank is its 1-based position. -/
theorem leaderboard_spec_witness :
    ([lbMember1, lbMember2].map LeaderboardMember.user_id).Nodup
    ∧ ∀ (i : ℕ) (h : i < (get_group_leaderboard [lbMember1, lbMember2]).length),
        ((get_group_leaderboard [lbMember1, lbMember2]).get ⟨i, h⟩).rank = i + 1 :=
  ⟨by simp [lbMember1, lbMember2],
    (leaderboard_spec [lbMember1, lbMember2] (by simp [lbMember1, lbMember2])).2.2.1⟩

/-- Claim C6: creating or updating a forecast on a prediction that is
locked or no longer open fails with an error and leaves the database
state unchanged; a request is accepted only while the prediction is open
and strictly before its lock-in deadline. -/
theorem forecast_write_guard (st : AppState) (now : ℚ) (current_user : ℕ)
    (fd : ForecastCreate) (new_id : ℕ) (fid : ℕ) (upd : ForecastUpdate) :
    (∀ p, findPred st fd.prediction_id = some p →
      (p.is_locked now = true ∨ p.status ≠ PredictionStatus.open_) →
      (∃ e, create_forecast st now current_user fd new_id = Except.error e)
        ∧ run_state st (create_forecast st now current_user fd new_id) = st)
    ∧ (∀ st2 fc, create_forecast st now current_user fd new_id = Except.ok (st2, fc) →
        ∃ p, findPred st fd.prediction_id = some p
          ∧ p.status = PredictionStatus.open_ ∧ p.is_locked now = false
          ∧ now < p.lock_in_at)
    ∧ (∀ f, st.forecasts.find? (fun g => g.id == fid) = some f →
        ∀ p, findPred st f.prediction_id = some p →
        (p.is_locked now = true ∨ p.status ≠ PredictionStatus.open_) →
        (∃ e, update_forecast st now current_user fid upd = Except.error e)
          ∧ run_state st (update_forecast st now current_user fid upd) = st)
    ∧ (∀ st2 fc, update_forecast st now current_user fid upd = Except.ok (st2, fc) →
        ∃ f p, st.forecasts.find? (fun g => g.id == fid) = some f
          ∧ findPred st f.prediction_id = some p
          ∧ p.status = PredictionStatus.open_ ∧ p.is_locked now = false
          ∧ now < p.lock_in_at) := by
  refine ⟨?_, ?_, ?_, ?_⟩
  · intro p hp hbad
    simp only [create_forecast, hp]
    by_cases h1 : (get_membership st p.group_id current_user).isNone
    · simp [h1, run_state]
    · rcases hbad with hlock | hstat
      · by_cases h2 : p.status ≠ PredictionStatus.open_
        · simp [h1, h2, run_state]
        · simp [h1, h2, hlock, run_state]
      · simp [h1, hstat, run_state]
  · intro st2 fc hok
    cases hfind : findPred st fd.prediction_id with
    | none => simp [create_forecast, hfind] at hok
    | some p =>
      refine ⟨p, rfl, ?_⟩
      simp only [create_forecast, hfind] at hok
      split at hok
      · exact Except.noConfusion hok
      · rename_i h1
        split at hok
        · exact Except.noConfusion hok
        · rename_i h2
          split at hok
          · exact Except.noConfusion hok
          · rename_i h3
            split at hok
            · exact Except.noConfusion hok
            · rw [not_not] at h2
              have h4 : p.is_locked now = false := by simpa using h3
              refine ⟨h2, h4, ?_⟩
              simp only [Prediction.is_locked] at h3
              have h5 : ¬ now ≥ p.lock_in_at := by simpa using h3
              exact lt_of_not_ge h5
  · intro f hf p hp hbad
    simp only [update_forecast, hf]
    by_cases h1 : f.user_id ≠ current_user
    · simp [h1, run_state]
    · rcases hbad with hlock | hstat
      · by_cases h2 : p.status ≠ PredictionStatus.open_
        · simp [h1, hp, h2, run_state]
        · simp [h1, hp, h2, hlock, run_state]
      · simp [h1, hp, hstat, run_state]
  · intro st2 fc hok
    cases hf : st.forecasts.find? (fun g => g.id == fid) with
    | none => simp [update_forecast, hf] at hok
    | some f =>
      simp only [update_forecast, hf] at hok
      split at hok
      · exact Except.noConfusion hok
      · cases hfind : findPred st f.prediction_id with
        | none => simp [hfind] at hok
        | some p =>
          simp only [hfind] at hok
          split at hok
          · exact Except.noConfusion hok
          · rename_i h2
            split at hok
            · exact Except.noConfusion hok
            · rename_i h3
              rw [not_not] at h2
              have h4 : p.is_locked now = false := by simpa using h3
              refine ⟨f, p, rfl, hfind, h2, h4, ?_⟩
              simp only [Prediction.is_locked] at h3
              have h5 : ¬ now ≥ p.lock_in_at := by simpa using h3
              exact lt_of_not_ge h5

/-- Claim C6 witness: at time 80 the fixture prediction (lock-in 75) is
locked, and a forecast-creation request on it errors without changing
the state. -/
theorem forecast_write_guard_witness :
    findPred stC6 fdC6.prediction_id = some predOpen
    ∧ (predOpen.is_locked 80 = true ∨ predOpen.status ≠ PredictionStatus.open_)
    ∧ ((∃ e, create_forecast stC6 80 2 fdC6 5 = Except.error e)
        ∧ run_state stC6 (create_forecast stC6 80 2 fdC6 5) = stC6) := by
  have h1 : findPred stC6 fdC6.prediction_id = some predOpen := rfl
  have h2 : predOpen.is_locked 80 = true := by
    norm_num [Prediction.is_locked, Prediction.lock_in_at, predOpen, LOCK_IN_PERCENTAGE]
  exact ⟨h1, Or.inl h2,
    (forecast_write_guard stC6 80 2 fdC6 5 0 updC6).1 predOpen h1 (Or.inl h2)⟩

/-- A found prediction carries the id it was looked up by. -/
theorem findPred_id (st : AppState) (pid : ℕ) (p : Prediction)
    (h : findPred st pid = some p) : p.id = pid := by
  have := List.find?_some h
  simpa using this

/-- Updating the prediction with another id leaves a lookup unchanged. -/
theorem find?_map_update_ne (l : List Prediction) (pid pid2 : ℕ) (u : Prediction)
    (hu : u.id = pid2) (hne : pid ≠ pid2) :
    (l.map (fun p => if p.id == pid2 then u else p)).find? (fun p => p.id == pid)
      = l.find? (fun p => p.id == pid) := by
  induction l with
  | nil => rfl
  | cons x xs ih =>
    by_cases hx : x.id = pid2
    · rw [List.map_cons, if_pos (by simpa using hx)]
      rw [List.find?_cons_of_neg _ (by simp [hu]; exact fun h => hne h.symm)]
      rw [List.find?_cons_of_neg _ (by simp [hx]; exact fun h => hne h.symm)]
      exact ih
    · rw [List.map_cons, if_neg (by simpa using hx)]
      by_cases hx2 : x.id = pid
      · rw [List.find?_cons_of_pos _ (by simpa using hx2),
          List.find?_cons_of_pos _ (by simpa using hx2)]
      · rw [List.find?_cons_of_neg _ (by simpa using hx2),
          List.find?_cons_of_neg _ (by simpa using hx2)]
        exact ih

/-- Updating the prediction with the looked-up id yields the update,
provided the id was present. -/
theorem find?_map_update_eq (l : List Prediction) (pid : ℕ) (u : Prediction)
    (hu : u.id = pid) :
    (l.map (fun p => if p.id == pid then u else p)).find? (fun p => p.id == pid)
      = if (l.find? (fun p => p.id == pid)).isSome then some u else none := by
  induction l with
  | nil => rfl
  | cons x xs ih =>
    by_cases hx : x.id = pid
    · rw [List.map_cons, if_pos (by simpa using hx)]
      rw [List.find?_cons_of_pos _ (by simpa using hu),
        List.find?_cons_of_pos _ (by simpa using hx)]
      simp
    · rw [List.map_cons, if_neg (by simpa using hx)]
      rw [List.find?_cons_of_neg _ (by simpa using hx),
        List.find?_cons_of_neg _ (by simpa using hx)]
      exact ih

/-- A successful resolve finds an open prediction, sets the requested
terminal status and the resolution timestamp, and rewrites exactly the
prediction rows carrying that id. -/
theorem resolve_prediction_ok (st : AppState) (now : ℚ) (current_user pid : ℕ)
    (rd : ResolveRequest) (st2 : AppState) (q : Prediction)
    (h : resolve_prediction st now current_user pid rd = Except.ok (st2, q)) :
    ∃ p, findPred st pid = some p ∧ p.status = PredictionStatus.open_
      ∧ rd.outcome ≠ PredictionStatus.open_
      ∧ q = { p with status := rd.outcome, resolved_at := some now }
      ∧ st2 = { st with predictions :=
          st.predictions.map (fun r => if r.id == pid then q else r) } := by
  simp only [resolve_prediction] at h
  split at h
  · exact Except.noConfusion h
  · rename_i h0
    cases hfind : findPred st pid with
    | none => simp [hfind] at h
    | some p =>
      simp only [hfind] at h
      split at h
      · exact Except.noConfusion h
      · rename_i h1
        split at h
        · exact Except.noConfusion h
        · rename_i mem hmem
          split at h
          · exact Except.noConfusion h
          · rw [not_not] at h1
            rw [Except.ok.injEq, Prod.mk.injEq] at h
            obtain ⟨hst, hq⟩ := h
            exact ⟨p, rfl, h1, h0, hq.symm, by rw [← hst, ← hq]⟩

/-- Resolving a prediction that is no longer open fails. -/
theorem resolve_prediction_not_open (st : AppState) (now : ℚ) (current_user pid : ℕ)
    (rd : ResolveRequest) (p : Prediction) (hp : findPred st pid = some p)
    (hstat : p.status ≠ PredictionStatus.open_) :
    ∃ e, resolve_prediction st now current_user pid rd = Except.error e := by
  simp only [resolve_prediction, hp]
  by_cases h0 : rd.outcome = PredictionStatus.open_
  · simp [h0]
  · simp [h0, hstat]

/-- Once a prediction is no longer open, any sequence of resolve requests
leaves it untouched and scores no further success on it. -/
theorem resolve_sequence_frozen (pid : ℕ) (ops : List ResolveOp) :
    ∀ (st : AppState) (p : Prediction), findPred st pid = some p →
      p.status ≠ PredictionStatus.open_ →
      resolve_count_on pid st ops = 0
      ∧ findPred (apply_resolves st ops) pid = some p := by
  induction ops with
  | nil => intro st p hp _; exact ⟨rfl, hp⟩
  | cons op ops ih =>
    intro st p hp hstat
    by_cases hid : op.prediction_id = pid
    · obtain ⟨e, he⟩ := resolve_prediction_not_open st op.now op.user
        op.prediction_id op.req p (by rw [hid]; exact hp) hstat
      have happ : apply_resolve st op = st := by simp [apply_resolve, he, run_state]
      obtain ⟨hc, hf⟩ := ih st p hp hstat
      refine ⟨?_, ?_⟩
      · simp [resolve_count_on, he, happ, hc, Except.isOk, Except.toBool]
      · show findPred (apply_resolves (apply_resolve st op) ops) pid = some p
        rw [happ]
        exact hf
    · cases hres : resolve_prediction st op.now op.user op.prediction_id op.req with
      | error e =>
        have happ : apply_resolve st op = st := by simp [apply_resolve, hres, run_state]
        obtain ⟨hc, hf⟩ := ih st p hp hstat
        refine ⟨?_, ?_⟩
        · simp [resolve_count_on, hres, happ, hc, Except.isOk, Except.toBool]
        · show findPred (apply_resolves (apply_resolve st op) ops) pid = some p
          rw [happ]
          exact hf
      | ok pr =>
        rcases pr with ⟨st2, q0⟩
        obtain ⟨p2, hfind2, hopen2, hout, hq0, hst2⟩ :=
          resolve_prediction_ok st op.now op.user op.prediction_id op.req st2 q0 hres
        have hqid : q0.id = op.prediction_id := by
          rw [hq0]
          exact findPred_id st op.prediction_id p2 hfind2
        have happ : apply_resolve st op = st2 := by simp [apply_resolve, hres, run_state]
        have hfind_new : findPred st2 pid = some p := by
          rw [hst2]
          simp only [findPred] at hp ⊢
          exact (find?_map_update_ne st.predictions pid op.prediction_id q0
            hqid (Ne.symm hid)).trans hp
        obtain ⟨hc, hf⟩ := ih st2 p hfind_new hstat
        have hcond : (op.prediction_id == pid) = false := by simp [hid]
        refine ⟨?_, ?_⟩
        · simp [resolve_count_on, hcond, happ, hc, Except.isOk, Except.toBool]
        · show findPred (apply_resolves (apply_resolve st op) ops) pid = some p
          rw [happ]
          exact hf

/-- Over any sequence of resolve requests, a prediction that starts open
with no resolution timestamp is resolved at most once: afterwards it is
either untouched (zero successes) or terminally resolved with its
timestamp set (exactly one success). -/
theorem resolve_sequence_invariant (pid : ℕ) (ops : List ResolveOp) :
    ∀ (st : AppState) (p : Prediction), findPred st pid = some p →
      p.status = PredictionStatus.open_ → p.resolved_at = none →
      resolve_count_on pid st ops ≤ 1
      ∧ ∃ q, findPred (apply_resolves st ops) pid = some q
          ∧ ((resolve_count_on pid st ops = 0 ∧ q = p)
            ∨ (resolve_count_on pid st ops = 1 ∧ q.status ≠ PredictionStatus.open_
                ∧ ∃ t, q.resolved_at = some t)) := by
  induction ops with
  | nil =>
    intro st p hp _ _
    exact ⟨by simp [resolve_count_on], p, hp, Or.inl ⟨rfl, rfl⟩⟩
  | cons op ops ih =>
    intro st p hp hopen hres
    cases hresolve : resolve_prediction st op.now op.user op.prediction_id op.req with
    | error e =>
      have happ : apply_resolve st op = st := by simp [apply_resolve, hresolve, run_state]
      have hcount : resolve_count_on pid st (op :: ops) = resolve_count_on pid st ops := by
        simp [resolve_count_on, hresolve, happ, Except.isOk, Except.toBool]
      obtain ⟨h1, q, hq, hcase⟩ := ih st p hp hopen hres
      refine ⟨hcount ▸ h1, q, ?_, hcount ▸ hcase⟩
      show findPred (apply_resolves (apply_resolve st op) ops) pid = some q
      rw [happ]
      exact hq
    | ok pr =>
      rcases pr with ⟨st2, q0⟩
      obtain ⟨p2, hfind2, hopen2, hout, hq0, hst2⟩ :=
        resolve_prediction_ok st op.now op.user op.prediction_id op.req st2 q0 hresolve
      have happ : apply_resolve st op = st2 := by simp [apply_resolve, hresolve, run_state]
      by_cases hid : op.prediction_id = pid
      · have hp2 : p2 = p := by
          rw [hid] at hfind2
          rw [hfind2] at hp
          exact Option.some_injective _ hp
        have hqid : q0.id = pid := by
          rw [hq0]
          show p2.id = pid
          rw [hp2]
          exact findPred_id st pid p hp
        have hfound : findPred st2 pid = some q0 := by
          rw [hst2]
          simp only [findPred] at hp ⊢
          rw [hid, find?_map_update_eq st.predictions pid q0 hqid, hp]
          rfl
        have hq0stat : q0.status = op.req.outcome := by rw [hq0]
        have hq0res : q0.resolved_at = some op.now := by rw [hq0]
        have hfrozen := resolve_sequence_frozen pid ops st2 q0 hfound
          (by rw [hq0stat]; exact hout)
        have hresolve2 : resolve_prediction st op.now op.user pid op.req
            = Except.ok (st2, q0) := by
          rw [← hid]
          exact hresolve
        have hcount : resolve_count_on pid st (op :: ops) = 1 := by
          simp [resolve_count_on, hresolve, hresolve2, hid, happ, hfrozen.1,
            Except.isOk, Except.toBool]
        refine ⟨by rw [hcount], q0, ?_,
          Or.inr ⟨hcount, by rw [hq0stat]; exact hout, op.now, hq0res⟩⟩
        show findPred (apply_resolves (apply_resolve st op) ops) pid = some q0
        rw [happ]
        exact hfrozen.2
      · have hqid : q0.id = op.prediction_id := by
          rw [hq0]
          exact findPred_id st op.prediction_id p2 hfind2
        have hfind_new : findPred st2 pid = some p := by
          rw [hst2]
          simp only [findPred] at hp ⊢
          exact (find?_map_update_ne st.predictions pid op.prediction_id q0
            hqid (Ne.symm hid)).trans hp
        have hcond : (op.prediction_id == pid) = false := by simp [hid]
        obtain ⟨h1, q, hq, hcase⟩ := ih st2 p hfind_new hopen hres
        have hcount : resolve_count_on pid st (op :: ops)
            = resolve_count_on pid st2 ops := by
          simp [resolve_count_on, hcond, happ, Except.isOk, Except.toBool]
        refine ⟨hcount ▸ h1, q, ?_, hcount ▸ hcase⟩
        show findPred (apply_resolves (apply_resolve st op) ops) pid = some q
        rw [happ]
        exact hq

/-- Claim C7: a prediction's status transitions away from open at most
once. A resolve may set an open prediction to resolved_yes, resolved_no
or ambiguous (never open) and stamps resolved_at at that moment; any
resolve attempt on a non-open prediction fails and leaves the state
unchanged; over every sequence of resolve requests an initially open
prediction gains at most one success, and its resolved_at is set iff
that one success happened. -/
theorem resolve_exactly_once_spec (st : AppState) (now : ℚ) (current_user pid : ℕ)
    (rd : ResolveRequest) :
    (∀ p, findPred st pid = some p → p.status ≠ PredictionStatus.open_ →
      (∃ e, resolve_prediction st now current_user pid rd = Except.error e)
        ∧ run_state st (resolve_prediction st now current_user pid rd) = st)
    ∧ (∀ st2 q, resolve_prediction st now current_user pid rd = Except.ok (st2, q) →
        ∃ p, findPred st pid = some p ∧ p.status = PredictionStatus.open_
          ∧ q.status = rd.outcome ∧ rd.outcome ≠ PredictionStatus.open_
          ∧ q.resolved_at = some now ∧ findPred st2 pid = some q)
    ∧ (∀ (ops : List ResolveOp) (p : Prediction), findPred st pid = some p →
        p.status = PredictionStatus.open_ → p.resolved_at = none →
        resolve_count_on pid st ops ≤ 1
        ∧ ∃ q, findPred (apply_resolves st ops) pid = some q
            ∧ ((resolve_count_on pid st ops = 0 ∧ q = p)
              ∨ (resolve_count_on pid st ops = 1 ∧ q.status ≠ PredictionStatus.open_
                  ∧ ∃ t, q.resolved_at = some t))) := by
  refine ⟨?_, ?_, ?_⟩
  · intro p hp hstat
    obtain ⟨e, he⟩ := resolve_prediction_not_open st now current_user pid rd p hp hstat
    exact ⟨⟨e, he⟩, by simp [he, run_state]⟩
  · intro st2 q h
    obtain ⟨p, hp, hopen, hout, hq, hst2⟩ :=
      resolve_prediction_ok st now current_user pid rd st2 q h
    have hqid : q.id = pid := by
      rw [hq]
      exact findPred_id st pid p hp
    refine ⟨p, hp, hopen, by rw [hq], hout, by rw [hq], ?_⟩
    rw [hst2]
    simp only [findPred] at hp ⊢
    rw [find?_map_update_eq st.predictions pid q hqid, hp]
    rfl
  · intro ops p hp hopen hres
    exact resolve_sequence_invariant pid ops st p hp hopen hres

/-- Claim C7 witness: two successive resolve requests on the fixture's
open prediction score exactly one success, after which it is terminally
resolved with its timestamp set. -/
theorem resolve_exactly_once_spec_witness :
    findPred stC7 1 = some predOpen
    ∧ predOpen.status = PredictionStatus.open_
    ∧ predOpen.resolved_at = none
    ∧ (resolve_count_on 1 stC7 opsC7 ≤ 1
      ∧ ∃ q, findPred (apply_resolves stC7 opsC7) 1 = some q
          ∧ ((resolve_count_on 1 stC7 opsC7 = 0 ∧ q = predOpen)
            ∨ (resolve_count_on 1 stC7 opsC7 = 1 ∧ q.status ≠ PredictionStatus.open_
                ∧ ∃ t, q.resolved_at = some t))) :=
  ⟨rfl, rfl, rfl,
    (resolve_exactly_once_spec stC7 5 1 1
        { outcome := PredictionStatus.resolved_yes }).2.2 opsC7 predOpen rfl rfl rfl⟩

/-- Claim C8 counterexample: the creation endpoint accepts a prediction
whose resolution date (50) lies strictly before its creation timestamp
(100), so creation does not guarantee `resolution_date > created_at`. -/
theorem create_prediction_validation_cex :
    ∃ st2 pr, create_prediction stC8 100 1 pdC8 7 = Except.ok (st2, pr)
      ∧ pr.resolution_date < pr.created_at := by
  refine ⟨_, _, rfl, ?_⟩
  show (50 : ℚ) < 100
  norm_num

/-- Claim C8 amended: the creation operation performs no validation of
`resolution_date` against the creation time; whenever the requester is a
member of the target group the request succeeds, storing the requested
resolution date and the server clock verbatim, for any resolution date
(the `resolution_date > created_at` invariant is the caller's
responsibility). -/
theorem create_prediction_no_validation (st : AppState) (now : ℚ) (current_user : ℕ)
    (pd : PredictionCreate) (new_id : ℕ)
    (hmem : (get_membership st pd.group_id current_user).isNone = false) :
    ∃ st2 pr, create_prediction st now current_user pd new_id = Except.ok (st2, pr)
      ∧ pr.resolution_date = pd.resolution_date ∧ pr.created_at = now
      ∧ pr.status = PredictionStatus.open_ ∧ pr.resolved_at = none
      ∧ st2 = { st with predictions := st.predictions ++ [pr] } := by
  refine ⟨_,
    { id := new_id, group_id := pd.group_id, creator_id := current_user,
      title := pd.title, description := pd.description,
      resolution_criteria := pd.resolution_criteria,
      resolution_date := pd.resolution_date,
      status := PredictionStatus.open_, resolved_at := none, created_at := now },
    ?_, rfl, rfl, rfl, rfl, rfl⟩
  simp only [create_prediction, hmem]
  rfl

/-- Claim C8 amended witness: the fixture member's request with a past
resolution date succeeds. -/
theorem create_prediction_no_validation_witness :
    (get_membership stC8 pdC8.group_id 1).isNone = false
    ∧ ∃ st2 pr, create_prediction stC8 100 1 pdC8 7 = Except.ok (st2, pr)
      ∧ pr.resolution_date = pdC8.resolution_date ∧ pr.created_at = 100
      ∧ pr.status = PredictionStatus.open_ ∧ pr.resolved_at = none
      ∧ st2 = { stC8 with predictions := stC8.predictions ++ [pr] } :=
  ⟨rfl, create_prediction_no_validation stC8 100 1 pdC8 7 rfl⟩

end ForecastClub
